import Mathlib

/-!
Verification of the dsync copy-compute-verify program (src/dsync.py)
against its natural-language specification.

The Python source is shallowly embedded below:
 - bytes are Nat (each byte < 256 in real runs; the algebra holds for all Nat),
 - zlib.adler32 with a start value is adler32u; Python 2 returns it as a
   signed 32-bit int, modelled by toSigned32, and the copy loop re-normalizes
   negative values by adding 2^32 (pyStep),
 - the copy loop (dsync.py lines 157-172) is copyGo, driven by the list of
   read results and a function giving each os.write call's return value,
 - the checksum rendering hex(asum)[2:10].zfill(8).lower() is finalizePy,
 - getSumFromPnfs (lines 120-132) scans sidecar lines for the ADLER32: token,
 - waitForSize (lines 146-155) is modelled twice: waitTrace records the
   log/sleep events of each unequal poll (stat assumed to succeed), and
   waitForSizeFuel additionally models os.stat raising OSError,
 - main (lines 30-106) is mainRun, a fueled function over an abstract World
   of syscall outcomes, returning the process outcome (sys.exit code,
   uncaught exception propagation, or still looping in waitForSize),
   whether the destination was removed, the blocks written to the
   destination, whether a sidecar pseudo-file was consulted, and whether the
   success record was emitted.
-/

set_option linter.all false

namespace Dsync

/-- Block size used by the copy loop (dsync.py line 23). -/
def IO_SIZE : Nat := 1024 * 1024

/-- One byte step of Adler-32: a := (a + c) mod 65521; b := (b + a) mod 65521. -/
def adlerStep (p : Nat × Nat) (c : Nat) : Nat × Nat :=
  ((p.1 + c) % 65521, (p.2 + (p.1 + c) % 65521) % 65521)

/-- zlib.adler32(data, s) as an unsigned value: the low 16 bits of s seed the
a-sum, the next 16 bits seed the b-sum, and the result is b * 65536 + a. -/
def adler32u (s : Nat) (data : List Nat) : Nat :=
  let p := data.foldl adlerStep (s % 65536, s / 65536 % 65536)
  p.2 * 65536 + p.1

/-- Reinterpret an unsigned 32-bit value as Python 2's signed int result. -/
def toSigned32 (n : Nat) : Int :=
  if n < 2 ^ 31 then (n : Int) else (n : Int) - 2 ^ 32

/-- zlib.adler32(data, asum) as returned by Python 2 (possibly negative). -/
def pyAdler32 (data : List Nat) (asum : Nat) : Int := toSigned32 (adler32u asum data)

/-- Normalization of the signed accumulator (dsync.py lines 168-169):
if asum < 0: asum += 2**32. -/
def pyNorm (v : Int) : Nat := (if v < 0 then v + 2 ^ 32 else v).toNat

/-- One iteration of the accumulator update in copy (dsync.py lines 167-169):
asum = adler32(data, asum); if asum < 0: asum += 2**32. -/
def pyStep (asum : Nat) (data : List Nat) : Nat := pyNorm (pyAdler32 data asum)

/-- Lowercase hex digit character for k < 16, as Python's hex() produces. -/
def hexDigit (k : Nat) : Char :=
  if k < 10 then Char.ofNat (48 + k) else Char.ofNat (87 + k)

/-- Fueled most-significant-first hex digit expansion (fuel n+1 suffices). -/
def hexDigitsAux : Nat → Nat → List Char → List Char
  | 0, _, acc => acc
  | fuel + 1, n, acc =>
    if n < 16 then hexDigit n :: acc
    else hexDigitsAux fuel (n / 16) (hexDigit (n % 16) :: acc)

/-- Hex digits of n, lowercase, no leading zeros: hex(n) without the 0x. -/
def hexDigits (n : Nat) : List Char := hexDigitsAux (n + 1) n []

/-- Python str.zfill(w): pad with zeros on the left up to width w. -/
def zfill (w : Nat) (l : List Char) : List Char :=
  List.replicate (w - l.length) (Char.ofNat 48) ++ l

/-- Checksum rendering in copy (dsync.py line 165):
hex(asum)[2:10].zfill(8).lower(). The slice [2:10] drops the 0x marker and
keeps at most 8 digit characters (it also drops the trailing L that Python 2
prints for a long with exactly 8 digits, the only long case reachable here). -/
def finalizePy (asum : Nat) : String :=
  String.mk ((zfill 8 ((hexDigits asum).take 8)).map Char.toLower)

/-- The copy loop of dsync.py lines 157-172. The blocks list holds the
successive non-EOF results of os.read (an empty element models EOF, as does
the end of the list); wr i is the return value of the i-th os.write call.
Returns the list of blocks actually passed to os.write, and either the
finalized checksum string (on the zero-length read) or the short-write
OSError. For each non-empty block the accumulator is folded first, then the
block is written; a short write raises before any further read. -/
def copyGo (asum : Nat) (blocks : List (List Nat)) (wr : Nat → Nat) (i : Nat) :
    List (List Nat) × Except Unit String :=
  match blocks with
  | [] => ([], Except.ok (finalizePy asum))
  | data :: rest =>
    if data.length = 0 then ([], Except.ok (finalizePy asum))
    else
      let asum2 := pyStep asum data
      if wr i = data.length then
        let t := copyGo asum2 rest wr (i + 1)
        (data :: t.1, t.2)
      else ([data], Except.error ())

/-- Write results of a destination that accepts every block in full. -/
def writeAll (blocks : List (List Nat)) : Nat → Nat :=
  fun i => (blocks.getD i []).length

/-- The characters of CSUM_PREFIX = "ADLER32:" (dsync.py line 25). -/
def csumPrefixL : List Char := "ADLER32:".data

/-- CSUM_PREFIX_LEN (dsync.py line 26). -/
def CSUM_PREFIX_LEN : Nat := csumPrefixL.length

/-- Python str whitespace characters, as stripped by str.strip(). -/
def isPySpace (c : Char) : Bool :=
  c == Char.ofNat 32 || c == Char.ofNat 9 || c == Char.ofNat 10 ||
  c == Char.ofNat 11 || c == Char.ofNat 12 || c == Char.ofNat 13

/-- Python str.strip(): drop leading and trailing whitespace. -/
def pyStrip (l : List Char) : List Char :=
  ((l.dropWhile isPySpace).reverse.dropWhile isPySpace).reverse

/-- Python 2 string.find(l, pat): index of the first occurrence of pat in l,
or none (Python returns -1; the checking branch is on i != -1). -/
def strFind : List Char → List Char → Option Nat
  | [], pat => if pat.isPrefixOf ([] : List Char) then some 0 else none
  | c :: rest, pat =>
    if pat.isPrefixOf (c :: rest) then some 0
    else (strFind rest pat).map (fun k => k + 1)

/-- getSumFromPnfs (dsync.py lines 120-132), applied to the lines of the
checksum sidecar pseudo-file: return the stripped text after the first
ADLER32: token of the first line containing it; with no matching line the
function falls off the end and Python returns None. -/
def getSumFromPnfs : List (List Char) → Option String
  | [] => none
  | l :: rest =>
    match strFind l csumPrefixL with
    | some i => some (String.mk (pyStrip (l.drop (i + CSUM_PREFIX_LEN))))
    | none => getSumFromPnfs rest

/-- SIZE_SUFFIX (dsync.py line 28). -/
def SIZE_SUFFIX : List String := ["", "KB", "MB", "GB", "TB"]

/-- to_size_string (dsync.py lines 113-118), with the floating-point
floor(log(n, 1024)) idealized as the integer logarithm Nat.log 1024 n.
Python's math.log raises ValueError on 0 (none), and SIZE_SUFFIX[f] raises
IndexError when f is past the five-entry table (none). -/
def to_size_string (n : Nat) : Option String :=
  if n = 0 then none
  else
    let f := Nat.log 1024 n
    (SIZE_SUFFIX.get? f).map (fun suf => toString (n / 1024 ^ f) ++ suf)

/-- Outcome of the fueled waitForSize model: the loop returned, os.stat
raised OSError, or the loop is still running after fuel polls. -/
inductive WaitRes
  | returned
  | raised
  | running
  deriving DecidableEq

/-- waitForSize (dsync.py lines 146-155) with stat outcomes per poll: stats i
is the size observed at poll i, or none when os.stat raises (the exception
propagates uncaught out of main). Fueled: running means the loop has not
finished within fuel polls. -/
def waitForSizeFuel (stats : Nat → Option Nat) (expected : Nat) : Nat → Nat → WaitRes
  | _, 0 => WaitRes.running
  | i, fuel + 1 =>
    match stats i with
    | none => WaitRes.raised
    | some s =>
      if s = expected then WaitRes.returned
      else waitForSizeFuel stats expected (i + 1) fuel

/-- Observable events of one unequal poll of waitForSize: the informational
retry log line, and the time.sleep of the interval argument. -/
inductive WEvent
  | retryLog
  | sleep : Nat → WEvent
  deriving DecidableEq

/-- waitForSize (dsync.py lines 146-155) with the per-iteration event trace:
sizes i is the st_size observed at poll i (stat assumed to succeed). Returns
the index of the first poll seeing the expected size together with the
retry-log and sleep events of all earlier polls, or none when the loop is
still running after fuel polls. -/
def waitTrace (sizes : Nat → Nat) (expected interval : Nat) : Nat → Nat → Option (Nat × List WEvent)
  | _, 0 => none
  | i, fuel + 1 =>
    if sizes i = expected then some (i, [])
    else (waitTrace sizes expected interval (i + 1) fuel).map
      (fun r => (r.1, WEvent.retryLog :: WEvent.sleep interval :: r.2))

/-- Outcomes of all the syscalls main performs, abstracting the filesystem
and the remote store. -/
structure World where
  srcOpenOk : Bool
  srcSize : Nat
  destExists : Bool
  destCreatable : Bool
  reads : List (List Nat)
  wr : Nat → Nat
  srcCloseOk : Bool
  destCloseOk : Bool
  stats : Nat → Option Nat
  csumOpenOk : Bool
  csumLines : List (List Char)
  idOpenOk : Bool

/-- How the process terminates: a sys.exit code, an uncaught exception
propagating out of main (Python prints a traceback; no cleanup runs), or
still blocked inside waitForSize after the model's fuel. -/
inductive Outcome
  | exit : Nat → Outcome
  | uncaught
  | hung
  deriving DecidableEq

/-- Observable result of one run of main. -/
structure MainResult where
  outcome : Outcome
  destRemoved : Bool
  destWritten : List (List Nat)
  sidecarRead : Bool
  successEmitted : Bool
  deriving DecidableEq

/-- main (dsync.py lines 30-106) over a World of syscall outcomes.
Stage order and exit codes follow the source: open source (exit 2), create
destination with O_EXCL - which fails whenever the path already exists -
(exit 3), copy (exit 4, destination removed), close source (failure only
logged), close destination (exit 5, destination removed), waitForSize
(an OSError from os.stat is uncaught: no removal), open the checksum
sidecar (an IOError is uncaught: no removal), compare lsum != rsum by string
equality (exit 6, destination removed), open the id sidecar (IOError
uncaught), then format the success record - to_size_string(lsize) raises
uncaught on a zero size before the record is emitted - and exit 0. -/
def mainRun (w : World) (fuel : Nat) : MainResult :=
  if !w.srcOpenOk then ⟨Outcome.exit 2, false, [], false, false⟩
  else if w.destExists || !w.destCreatable then ⟨Outcome.exit 3, false, [], false, false⟩
  else
    let t := copyGo 1 w.reads w.wr 0
    match t.2 with
    | Except.error _ => ⟨Outcome.exit 4, true, t.1, false, false⟩
    | Except.ok lsum =>
      if !w.destCloseOk then ⟨Outcome.exit 5, true, t.1, false, false⟩
      else
        match waitForSizeFuel w.stats w.srcSize 0 fuel with
        | WaitRes.running => ⟨Outcome.hung, false, t.1, false, false⟩
        | WaitRes.raised => ⟨Outcome.uncaught, false, t.1, false, false⟩
        | WaitRes.returned =>
          if !w.csumOpenOk then ⟨Outcome.uncaught, false, t.1, true, false⟩
          else if getSumFromPnfs w.csumLines = some lsum then
            if !w.idOpenOk then ⟨Outcome.uncaught, false, t.1, true, false⟩
            else
              match to_size_string w.srcSize with
              | none => ⟨Outcome.uncaught, false, t.1, true, false⟩
              | some _ => ⟨Outcome.exit 0, false, t.1, true, true⟩
          else ⟨Outcome.exit 6, true, t.1, true, false⟩

/-! Core lemmas about the Adler-32 fold. -/

theorem adlerStep_lt (p : Nat × Nat) (c : Nat) :
    (adlerStep p c).1 < 65536 ∧ (adlerStep p c).2 < 65536 := by
  unfold adlerStep
  constructor <;> exact Nat.lt_of_lt_of_le (Nat.mod_lt _ (by omega)) (by omega)

theorem adler_foldl_lt (data : List Nat) (p : Nat × Nat)
    (h1 : p.1 < 65536) (h2 : p.2 < 65536) :
    (data.foldl adlerStep p).1 < 65536 ∧ (data.foldl adlerStep p).2 < 65536 := by
  induction data generalizing p with
  | nil => exact ⟨h1, h2⟩
  | cons c rest ih =>
    simp only [List.foldl_cons]
    exact ih (adlerStep p c) (adlerStep_lt p c).1 (adlerStep_lt p c).2

theorem adler32u_lt (s : Nat) (data : List Nat) : adler32u s data < 2 ^ 32 := by
  unfold adler32u
  dsimp only
  have h := adler_foldl_lt data (s % 65536, s / 65536 % 65536)
    (Nat.mod_lt _ (by omega)) (Nat.mod_lt _ (by omega))
  omega

theorem adler32u_append (s : Nat) (x y : List Nat) :
    adler32u s (x ++ y) = adler32u (adler32u s x) y := by
  unfold adler32u
  simp only [List.foldl_append]
  have h := adler_foldl_lt x (s % 65536, s / 65536 % 65536)
    (Nat.mod_lt _ (by omega)) (Nat.mod_lt _ (by omega))
  set p := x.foldl adlerStep (s % 65536, s / 65536 % 65536) with hp
  have hmod : (p.2 * 65536 + p.1) % 65536 = p.1 := by omega
  have hdiv : (p.2 * 65536 + p.1) / 65536 % 65536 = p.2 := by omega
  rw [hmod, hdiv]

theorem pyStep_eq (asum : Nat) (data : List Nat) :
    pyStep asum data = adler32u asum data := by
  unfold pyStep pyNorm pyAdler32 toSigned32
  have h := adler32u_lt asum data
  set v := adler32u asum data with hv
  split
  · rw [if_neg (by omega)]
    omega
  · rw [if_pos (by omega)]
    omega

theorem adler32u_nil (s : Nat) (h : s < 2 ^ 32) : adler32u s [] = s := by
  unfold adler32u
  simp only [List.foldl_nil]
  omega

theorem foldl_pyStep_join (blocks : List (List Nat)) (s : Nat) (h : s < 2 ^ 32) :
    blocks.foldl pyStep s = adler32u s blocks.join := by
  induction blocks generalizing s with
  | nil => simp [adler32u_nil s h]
  | cons d rest ih =>
    simp only [List.foldl_cons, List.join_cons]
    rw [pyStep_eq, ih (adler32u s d) (adler32u_lt s d), adler32u_append]

/-! Lemmas about the copy loop. -/

theorem copyGo_ok (blocks : List (List Nat)) (wr : Nat → Nat) (i asum : Nat)
    (hw : ∀ j, j < blocks.length → wr (i + j) = (blocks.getD j []).length)
    (hne : ∀ b ∈ blocks, b ≠ []) :
    copyGo asum blocks wr i = (blocks, Except.ok (finalizePy (blocks.foldl pyStep asum))) := by
  induction blocks generalizing i asum with
  | nil => simp [copyGo]
  | cons d rest ih =>
    have hd : d.length ≠ 0 := by
      have := hne d (by simp)
      simpa [List.length_eq_zero] using this
    have hw0 : wr i = d.length := by
      have := hw 0 (by simp)
      simpa using this
    have hrest : copyGo (pyStep asum d) rest wr (i + 1) =
        (rest, Except.ok (finalizePy (rest.foldl pyStep (pyStep asum d)))) := by
      refine ih (i + 1) (pyStep asum d) (fun j hj => ?_) (fun b hb => hne b (by simp [hb]))
      have := hw (j + 1) (by simpa using Nat.succ_lt_succ hj)
      simpa [Nat.add_assoc, Nat.add_comm 1 j] using this
    simp [copyGo, hd, hw0, hrest]

theorem copyGo_shortWrite (pre : List (List Nat)) (b : List Nat) (post : List (List Nat))
    (wr : Nat → Nat) (i asum : Nat)
    (hpre : ∀ x ∈ pre, x ≠ [])
    (hw : ∀ j, j < pre.length → wr (i + j) = (pre.getD j []).length)
    (hb : b ≠ [])
    (hfail : wr (i + pre.length) ≠ b.length) :
    copyGo asum (pre ++ b :: post) wr i = (pre ++ [b], Except.error ()) := by
  induction pre generalizing i asum with
  | nil =>
    have hbl : b.length ≠ 0 := by simpa [List.length_eq_zero] using hb
    have hf : wr i ≠ b.length := by simpa using hfail
    simp [copyGo, hbl, hf]
  | cons d rest ih =>
    have hd : d.length ≠ 0 := by
      have := hpre d (by simp)
      simpa [List.length_eq_zero] using this
    have hw0 : wr i = d.length := by
      have := hw 0 (by simp)
      simpa using this
    have hrest : copyGo (pyStep asum d) (rest ++ b :: post) wr (i + 1) =
        (rest ++ [b], Except.error ()) := by
      refine ih (i + 1) (pyStep asum d) (fun x hx => hpre x (by simp [hx]))
        (fun j hj => ?_) ?_
      · have := hw (j + 1) (by simpa using Nat.succ_lt_succ hj)
        simpa [Nat.add_assoc, Nat.add_comm 1 j] using this
      · have := hfail
        simpa [List.length_cons, Nat.add_assoc, Nat.add_comm 1 rest.length] using this
    simp [copyGo, hd, hw0, hrest]

/-! Lemmas about the checksum rendering. -/

/-- The sixteen characters a rendered checksum may contain. -/
def hexLowerChars : List Char := "0123456789abcdef".data

theorem hexDigit_mem_of_lt : ∀ k, k < 16 → hexDigit k ∈ hexLowerChars := by decide

theorem hexLower_toLower : ∀ c ∈ hexLowerChars, c.toLower = c := by decide

theorem hexDigitsAux_chars (fuel : Nat) :
    ∀ (n : Nat) (acc : List Char), (∀ c ∈ acc, c ∈ hexLowerChars) →
      ∀ c ∈ hexDigitsAux fuel n acc, c ∈ hexLowerChars := by
  induction fuel with
  | zero => intro n acc hacc c hc; exact hacc c hc
  | succ fuel ih =>
    intro n acc hacc c hc
    unfold hexDigitsAux at hc
    by_cases h16 : n < 16
    · rw [if_pos h16] at hc
      rcases List.mem_cons.mp hc with h | h
      · exact h ▸ hexDigit_mem_of_lt n h16
      · exact hacc c h
    · rw [if_neg h16] at hc
      refine ih (n / 16) (hexDigit (n % 16) :: acc) (fun x hx => ?_) c hc
      rcases List.mem_cons.mp hx with h | h
      · exact h ▸ hexDigit_mem_of_lt (n % 16) (Nat.mod_lt _ (by omega))
      · exact hacc x h

theorem finalizePy_length (n : Nat) : (finalizePy n).length = 8 := by
  simp [finalizePy, zfill, String.length]

theorem finalizePy_chars (n : Nat) :
    ∀ c ∈ (finalizePy n).data, c ∈ hexLowerChars := by
  intro c hc
  simp only [finalizePy, zfill, String.data] at hc
  rcases List.mem_map.mp hc with ⟨x, hx, hxc⟩
  have hxmem : x ∈ hexLowerChars := by
    rcases List.mem_append.mp hx with h | h
    · have := List.eq_of_mem_replicate h
      subst this
      decide
    · exact hexDigitsAux_chars (n + 1) n [] (by simp) x (List.mem_of_mem_take h)
  rw [← hxc, hexLower_toLower x hxmem]
  exact hxmem

/-! Lemmas about the sidecar checksum scan. -/

theorem getSumFromPnfs_none (lines : List (List Char))
    (h : ∀ l ∈ lines, strFind l csumPrefixL = none) :
    getSumFromPnfs lines = none := by
  induction lines with
  | nil => rfl
  | cons l rest ih =>
    have hl : strFind l csumPrefixL = none := h l (by simp)
    have hr : getSumFromPnfs rest = none := ih (fun x hx => h x (by simp [hx]))
    simp [getSumFromPnfs, hl, hr]

/-! Lemmas about the orchestrator. -/

theorem mainRun_mismatch (w : World) (fuel : Nat) (lsum : String)
    (h1 : w.srcOpenOk = true) (h2 : w.destExists = false) (h3 : w.destCreatable = true)
    (h4 : (copyGo 1 w.reads w.wr 0).2 = Except.ok lsum)
    (h5 : w.destCloseOk = true)
    (h6 : waitForSizeFuel w.stats w.srcSize 0 fuel = WaitRes.returned)
    (h7 : w.csumOpenOk = true)
    (h8 : getSumFromPnfs w.csumLines ≠ some lsum) :
    mainRun w fuel =
      ⟨Outcome.exit 6, true, (copyGo 1 w.reads w.wr 0).1, true, false⟩ := by
  simp only [mainRun, h1, h2, h3, h5, h7, Bool.not_true, Bool.false_or, if_false,
    Bool.not_false, ite_false, ite_true]
  rw [h4, h6]
  simp [h8]

theorem mainRun_checkOk (w : World) (fuel : Nat) (lsum : String)
    (h1 : w.srcOpenOk = true) (h2 : w.destExists = false) (h3 : w.destCreatable = true)
    (h4 : (copyGo 1 w.reads w.wr 0).2 = Except.ok lsum)
    (h5 : w.destCloseOk = true)
    (h6 : waitForSizeFuel w.stats w.srcSize 0 fuel = WaitRes.returned)
    (h7 : w.csumOpenOk = true)
    (h8 : getSumFromPnfs w.csumLines = some lsum) :
    ((mainRun w fuel).outcome = Outcome.uncaught ∨ (mainRun w fuel).outcome = Outcome.exit 0) ∧
      (mainRun w fuel).destRemoved = false := by
  simp only [mainRun, h1, h2, h3, h5, h7, Bool.not_true, Bool.false_or, if_false,
    Bool.not_false, ite_false, ite_true]
  rw [h4, h6]
  simp only [h8, ite_true, if_pos rfl]
  by_cases hid : w.idOpenOk
  · simp only [hid, Bool.not_true, if_false, ite_false]
    cases hts : to_size_string w.srcSize <;> simp
  · simp [hid]

theorem mainRun_removed_iff (w : World) (fuel : Nat) :
    (mainRun w fuel).destRemoved = true ↔
      ((mainRun w fuel).outcome = Outcome.exit 4 ∨
       (mainRun w fuel).outcome = Outcome.exit 5 ∨
       (mainRun w fuel).outcome = Outcome.exit 6) := by
  simp only [mainRun]
  repeat' split
  all_goals simp

theorem mainRun_waitRaised (w : World) (fuel : Nat) (lsum : String)
    (h1 : w.srcOpenOk = true) (h2 : w.destExists = false) (h3 : w.destCreatable = true)
    (h4 : (copyGo 1 w.reads w.wr 0).2 = Except.ok lsum)
    (h5 : w.destCloseOk = true)
    (h6 : waitForSizeFuel w.stats w.srcSize 0 fuel = WaitRes.raised) :
    mainRun w fuel =
      ⟨Outcome.uncaught, false, (copyGo 1 w.reads w.wr 0).1, false, false⟩ := by
  simp only [mainRun, h1, h2, h3, h5, Bool.not_true, Bool.false_or, if_false,
    Bool.not_false, ite_false, ite_true]
  rw [h4, h6]
  simp

theorem mainRun_csumOpenFail (w : World) (fuel : Nat) (lsum : String)
    (h1 : w.srcOpenOk = true) (h2 : w.destExists = false) (h3 : w.destCreatable = true)
    (h4 : (copyGo 1 w.reads w.wr 0).2 = Except.ok lsum)
    (h5 : w.destCloseOk = true)
    (h6 : waitForSizeFuel w.stats w.srcSize 0 fuel = WaitRes.returned)
    (h7 : w.csumOpenOk = false) :
    mainRun w fuel =
      ⟨Outcome.uncaught, false, (copyGo 1 w.reads w.wr 0).1, true, false⟩ := by
  simp only [mainRun, h1, h2, h3, h5, h7, Bool.not_true, Bool.not_false, Bool.false_or,
    if_false, ite_false, ite_true]
  rw [h4, h6]
  simp

/-! Lemmas about the size-wait loop trace. -/

theorem waitTrace_first (sizes : Nat → Nat) (expected interval : Nat) :
    ∀ (k i fuel : Nat), (∀ j, j < k → sizes (i + j) ≠ expected) →
      sizes (i + k) = expected → k < fuel →
      waitTrace sizes expected interval i fuel =
        some (i + k, (List.replicate k [WEvent.retryLog, WEvent.sleep interval]).join) := by
  intro k
  induction k with
  | zero =>
    intro i fuel h1 h2 hf
    cases fuel with
    | zero => omega
    | succ f =>
      have h2i : sizes i = expected := by simpa using h2
      simp [waitTrace, h2i]
  | succ k ih =>
    intro i fuel h1 h2 hf
    cases fuel with
    | zero => omega
    | succ f =>
      have h0 : sizes i ≠ expected := by
        have := h1 0 (by omega)
        simpa using this
      have hrec := ih (i + 1) f
        (fun j hj => by
          have := h1 (j + 1) (by omega)
          simpa [Nat.add_assoc, Nat.add_comm 1 j] using this)
        (by
          have : i + (k + 1) = i + 1 + k := by omega
          rw [← this]; exact h2)
        (by omega)
      have harith : i + 1 + k = i + (k + 1) := by omega
      simp [waitTrace, h0, hrec, harith, List.replicate_succ]

theorem waitTrace_never (sizes : Nat → Nat) (expected interval : Nat)
    (h : ∀ j, sizes j ≠ expected) :
    ∀ (fuel i : Nat), waitTrace sizes expected interval i fuel = none := by
  intro fuel
  induction fuel with
  | zero => intro i; rfl
  | succ f ih =>
    intro i
    simp [waitTrace, h i, ih (i + 1)]

/-! Lemmas about the size formatter. -/

theorem to_size_string_isSome (n : Nat) :
    (to_size_string n).isSome ↔ (1 ≤ n ∧ n < 1024 ^ 5) := by
  by_cases h0 : n = 0
  · subst h0
    simp [to_size_string]
  · have hiff : n < 1024 ^ 5 ↔ Nat.log 1024 n < 5 :=
      Nat.lt_pow_iff_log_lt (by norm_num) h0
    simp only [to_size_string, if_neg h0, Option.isSome_map']
    constructor
    · intro h
      refine ⟨by omega, hiff.mpr ?_⟩
      by_contra hge
      push_neg at hge
      have hnone : SIZE_SUFFIX.get? (Nat.log 1024 n) = none :=
        List.get?_eq_none.mpr (by simpa [SIZE_SUFFIX] using hge)
      rw [hnone] at h
      simp at h
    · rintro ⟨-, hlt⟩
      have hl : Nat.log 1024 n < SIZE_SUFFIX.length := by
        simpa [SIZE_SUFFIX] using hiff.mp hlt
      rw [List.get?_eq_get hl]
      rfl

/-! Concrete worlds used by counterexamples and witnesses. The source file
content "abc" (bytes 97 98 99) has Adler-32 value 0x024d0127, the worked
example of the specification. -/

/-- World for C1: the transfer of "abc" succeeds and the remote sidecar
reports the same checksum value in uppercase hex. -/
def wC1 : World where
  srcOpenOk := true
  srcSize := 3
  destExists := false
  destCreatable := true
  reads := [[97, 98, 99]]
  wr := fun _ => 3
  srcCloseOk := true
  destCloseOk := true
  stats := fun _ => some 3
  csumOpenOk := true
  csumLines := [("ADLER32:024D0127").data]
  idOpenOk := true

/-- World for C4: the checksum sidecar file has no line with the ADLER32:
token. -/
def wC4 : World where
  srcOpenOk := true
  srcSize := 3
  destExists := false
  destCreatable := true
  reads := [[97, 98, 99]]
  wr := fun _ => 3
  srcCloseOk := true
  destCloseOk := true
  stats := fun _ => some 3
  csumOpenOk := true
  csumLines := [("MD5:deadbeef").data, ("no checksum here").data]
  idOpenOk := true

/-- World for C5: the destination is created and fully written, but os.stat
raises inside waitForSize at the first poll. -/
def wC5 : World where
  srcOpenOk := true
  srcSize := 3
  destExists := false
  destCreatable := true
  reads := [[97, 98, 99]]
  wr := fun _ => 3
  srcCloseOk := true
  destCloseOk := true
  stats := fun _ => none
  csumOpenOk := true
  csumLines := [("ADLER32:024d0127").data]
  idOpenOk := true

/-- World for C7: the destination path already exists before invocation. -/
def wC7 : World where
  srcOpenOk := true
  srcSize := 3
  destExists := true
  destCreatable := true
  reads := [[97, 98, 99]]
  wr := fun _ => 3
  srcCloseOk := true
  destCloseOk := true
  stats := fun _ => some 3
  csumOpenOk := true
  csumLines := [("ADLER32:024d0127").data]
  idOpenOk := true

/-- World for C10: a zero-byte source; copy and verification succeed, the
remote checksum matches the rendered seed 00000001, and the run reaches the
success-record formatting with lsize = 0. -/
def wC10 : World where
  srcOpenOk := true
  srcSize := 0
  destExists := false
  destCreatable := true
  reads := []
  wr := fun _ => 0
  srcCloseOk := true
  destCloseOk := true
  stats := fun _ => some 0
  csumOpenOk := true
  csumLines := [("ADLER32:00000001").data]
  idOpenOk := true

/-! Claim theorems. -/

/-- C1 counterexample: the local and remote checksums are NOT compared
case-insensitively. In wC1 the copy of "abc" yields the local checksum
024d0127 and the remote sidecar reports 024D0127 - the same hex value,
differing only in letter case (lowercasing the remote string gives exactly
the local string) - yet main takes the checksum-mismatch exit (status 6) and
deletes the destination, refuting the claim that such a pair compares equal. -/
theorem c1_counterexample :
    (copyGo 1 wC1.reads wC1.wr 0).2 = Except.ok "024d0127" ∧
    getSumFromPnfs wC1.csumLines = some "024D0127" ∧
    ("024D0127").data.map Char.toLower = ("024d0127").data ∧
    mainRun wC1 1 = ⟨Outcome.exit 6, true, [[97, 98, 99]], true, false⟩ :=
  ⟨rfl, by decide, by decide, by decide⟩

/-- C1 (amended): the verification step compares the local checksum string
returned by copy and the probed remote value by exact string equality
(dsync.py line 93, lsum != rsum): once the run reaches verification, the
checksum-mismatch exit (status 6) is taken exactly when the probed remote
value differs, as a string, from the local checksum - case differences
included - and on that exit the destination is deleted. -/
theorem c1_amended (w : World) (fuel : Nat) (lsum : String)
    (h1 : w.srcOpenOk = true) (h2 : w.destExists = false) (h3 : w.destCreatable = true)
    (h4 : (copyGo 1 w.reads w.wr 0).2 = Except.ok lsum)
    (h5 : w.destCloseOk = true)
    (h6 : waitForSizeFuel w.stats w.srcSize 0 fuel = WaitRes.returned)
    (h7 : w.csumOpenOk = true) :
    ((mainRun w fuel).outcome = Outcome.exit 6 ↔ getSumFromPnfs w.csumLines ≠ some lsum) ∧
    (getSumFromPnfs w.csumLines ≠ some lsum → (mainRun w fuel).destRemoved = true) := by
  by_cases h8 : getSumFromPnfs w.csumLines = some lsum
  · have hc := mainRun_checkOk w fuel lsum h1 h2 h3 h4 h5 h6 h7 h8
    refine ⟨⟨fun h6x => ?_, fun hne => absurd h8 hne⟩, fun hne => absurd h8 hne⟩
    rcases hc.1 with h | h <;> rw [h6x] at h <;> simp at h
  · have hm := mainRun_mismatch w fuel lsum h1 h2 h3 h4 h5 h6 h7 h8
    rw [hm]
    exact ⟨by simp [h8], fun _ => rfl⟩

/-- C1 witness: the amended comparison applied to the concrete world wC1,
whose remote string differs (only in case) from the local checksum. -/
theorem c1_witness :
    getSumFromPnfs wC1.csumLines ≠ some "024d0127" ∧
    (mainRun wC1 1).outcome = Outcome.exit 6 ∧
    (mainRun wC1 1).destRemoved = true := by
  have h := c1_amended wC1 1 "024d0127" rfl rfl rfl rfl rfl (by decide) rfl
  exact ⟨by decide, h.1.mpr (by decide), h.2 (by decide)⟩

/-- C2: Adler-32 chunking invariance of the copy loop. For every partition
of a byte sequence into non-empty consecutive blocks, the checksum string
returned by copy when the source yields those blocks in order (with every
write accepted in full) equals the one returned when the source yields the
whole sequence as a single block. -/
theorem c2_chunking (blocks : List (List Nat)) (hne : ∀ b ∈ blocks, b ≠ []) :
    (copyGo 1 blocks (writeAll blocks) 0).2 =
      (copyGo 1 [blocks.join] (writeAll [blocks.join]) 0).2 := by
  have hL := copyGo_ok blocks (writeAll blocks) 0 1
    (fun j hj => by simp [writeAll]) hne
  rw [hL]
  by_cases hj : blocks.join = []
  · have hbl : blocks = [] := by
      cases blocks with
      | nil => rfl
      | cons b rest =>
        exfalso
        have hb := hne b (by simp)
        have : b ++ rest.join = [] := by simpa using hj
        exact hb (List.append_eq_nil.mp this).1
    subst hbl
    rfl
  · have hR := copyGo_ok [blocks.join] (writeAll [blocks.join]) 0 1
      (fun j hj => by simp [writeAll]) (by simpa using hj)
    rw [hR]
    simp only []
    congr 1
    rw [foldl_pyStep_join blocks 1 (by norm_num)]
    simp only [List.foldl_cons, List.foldl_nil]
    rw [pyStep_eq]

/-- C2 witness: chunking invariance evaluated on the partition of the bytes
97 98 99 into the two blocks (97) and (98 99). -/
theorem c2_witness :
    (∀ b ∈ ([[97], [98, 99]] : List (List Nat)), b ≠ []) ∧
    (copyGo 1 [[97], [98, 99]] (writeAll [[97], [98, 99]]) 0).2 =
      (copyGo 1 [([[97], [98, 99]] : List (List Nat)).join]
        (writeAll [([[97], [98, 99]] : List (List Nat)).join]) 0).2 :=
  ⟨by decide, c2_chunking [[97], [98, 99]] (by decide)⟩

/-- C3: a short write fails the copy immediately. If every block before b is
read, folded and written in full and the write of block b returns a count
different from its length, copy raises the short-write OSError right there:
the list of blocks passed to write is exactly the earlier blocks plus b,
so no later block is read, folded into the accumulator, or written. -/
theorem c3_shortWrite (pre : List (List Nat)) (b : List Nat) (post : List (List Nat))
    (wr : Nat → Nat)
    (hpre : ∀ x ∈ pre, x ≠ [])
    (hw : ∀ j, j < pre.length → wr j = (pre.getD j []).length)
    (hb : b ≠ [])
    (hfail : wr pre.length ≠ b.length) :
    copyGo 1 (pre ++ b :: post) wr 0 = (pre ++ [b], Except.error ()) :=
  copyGo_shortWrite pre b post wr 0 1 hpre
    (fun j hj => by simpa using hw j hj) hb (by simpa using hfail)

/-- C3 witness: the second write is short (returns 0 for a 2-byte block), so
copy stops with the error after writing only the first block and the failing
block, and the trailing block (4) is never read or written. -/
theorem c3_witness :
    ((fun j => if j = 0 then 1 else 0) ([[1]] : List (List Nat)).length ≠
      ([2, 3] : List Nat).length) ∧
    copyGo 1 ([[1]] ++ [2, 3] :: [[4]]) (fun j => if j = 0 then 1 else 0) 0 =
      ([[1]] ++ [[2, 3]], Except.error ()) :=
  ⟨by decide,
    c3_shortWrite [[1]] [2, 3] [[4]] (fun j => if j = 0 then 1 else 0)
      (by decide) (by decide) (by decide) (by decide)⟩

/-- C4: if no line of the checksum sidecar pseudo-file contains the ADLER32:
token, getSumFromPnfs yields no value (None), and a run that reaches
verification takes the checksum-mismatch exit (status 6) after deleting the
destination; the success record is never emitted. -/
theorem c4_noAdlerLine (w : World) (fuel : Nat) (lsum : String)
    (h1 : w.srcOpenOk = true) (h2 : w.destExists = false) (h3 : w.destCreatable = true)
    (h4 : (copyGo 1 w.reads w.wr 0).2 = Except.ok lsum)
    (h5 : w.destCloseOk = true)
    (h6 : waitForSizeFuel w.stats w.srcSize 0 fuel = WaitRes.returned)
    (h7 : w.csumOpenOk = true)
    (h8 : ∀ l ∈ w.csumLines, strFind l csumPrefixL = none) :
    getSumFromPnfs w.csumLines = none ∧
    (mainRun w fuel).outcome = Outcome.exit 6 ∧
    (mainRun w fuel).destRemoved = true ∧
    (mainRun w fuel).successEmitted = false := by
  have hn := getSumFromPnfs_none w.csumLines h8
  have hm := mainRun_mismatch w fuel lsum h1 h2 h3 h4 h5 h6 h7 (by simp [hn])
  rw [hm]
  exact ⟨hn, rfl, rfl, rfl⟩

/-- C4 witness: the sidecar of wC4 has lines but none with the ADLER32:
token, and the run ends at the mismatch exit with the destination deleted. -/
theorem c4_witness :
    (∀ l ∈ wC4.csumLines, strFind l csumPrefixL = none) ∧
    getSumFromPnfs wC4.csumLines = none ∧
    (mainRun wC4 1).outcome = Outcome.exit 6 ∧
    (mainRun wC4 1).destRemoved = true ∧
    (mainRun wC4 1).successEmitted = false := by
  have h := c4_noAdlerLine wC4 1 "024d0127" rfl rfl rfl rfl rfl (by decide) rfl (by decide)
  exact ⟨by decide, h.1, h.2.1, h.2.2.1, h.2.2.2⟩

/-- C5 counterexample: in wC5 the destination has been created and fully
written (the copy wrote the block 97 98 99) when os.stat raises inside
waitForSize; this fatal post-creation error terminates the program as an
uncaught exception WITHOUT deleting the destination, refuting the claim
that every fatal error after creation deletes the destination. -/
theorem c5_counterexample :
    (mainRun wC5 1).destWritten = [[97, 98, 99]] ∧
    (mainRun wC5 1).outcome = Outcome.uncaught ∧
    (mainRun wC5 1).destRemoved = false := by decide

/-- C5 (amended): the destination is deleted exactly on the three caught
fatal errors - copy failure (exit 4), destination-close failure (exit 5)
and checksum mismatch (exit 6); a size-wait stat failure or a failure to
open the checksum sidecar terminates the program as an uncaught exception
and the destination is NOT deleted. -/
theorem c5_amended :
    (∀ (w : World) (fuel : Nat),
        (mainRun w fuel).destRemoved = true ↔
          ((mainRun w fuel).outcome = Outcome.exit 4 ∨
           (mainRun w fuel).outcome = Outcome.exit 5 ∨
           (mainRun w fuel).outcome = Outcome.exit 6)) ∧
    (∀ (w : World) (fuel : Nat) (lsum : String),
        w.srcOpenOk = true → w.destExists = false → w.destCreatable = true →
        (copyGo 1 w.reads w.wr 0).2 = Except.ok lsum → w.destCloseOk = true →
        waitForSizeFuel w.stats w.srcSize 0 fuel = WaitRes.raised →
        mainRun w fuel =
          ⟨Outcome.uncaught, false, (copyGo 1 w.reads w.wr 0).1, false, false⟩) ∧
    (∀ (w : World) (fuel : Nat) (lsum : String),
        w.srcOpenOk = true → w.destExists = false → w.destCreatable = true →
        (copyGo 1 w.reads w.wr 0).2 = Except.ok lsum → w.destCloseOk = true →
        waitForSizeFuel w.stats w.srcSize 0 fuel = WaitRes.returned →
        w.csumOpenOk = false →
        mainRun w fuel =
          ⟨Outcome.uncaught, false, (copyGo 1 w.reads w.wr 0).1, true, false⟩) :=
  ⟨mainRun_removed_iff,
   fun w fuel lsum h1 h2 h3 h4 h5 h6 => mainRun_waitRaised w fuel lsum h1 h2 h3 h4 h5 h6,
   fun w fuel lsum h1 h2 h3 h4 h5 h6 h7 => mainRun_csumOpenFail w fuel lsum h1 h2 h3 h4 h5 h6 h7⟩

/-- C5 witness: the amended deletion discipline evaluated on wC5, where stat
raises at the first poll after a complete copy. -/
theorem c5_witness :
    waitForSizeFuel wC5.stats wC5.srcSize 0 1 = WaitRes.raised ∧
    mainRun wC5 1 = ⟨Outcome.uncaught, false, [[97, 98, 99]], false, false⟩ := by
  have h := c5_amended.2.1 wC5 1 "024d0127" rfl rfl rfl rfl rfl (by decide)
  refine ⟨by decide, ?_⟩
  rw [h]
  decide

/-- C6: rendering of the finalized accumulator. For every signed 32-bit
accumulator value v returned by adler32, the normalization of dsync.py lines
168-169 yields the unsigned 32-bit value v mod 2^32 (adding 2^32 exactly
when v is negative), and the rendered string finalizePy of it is exactly 8
characters, each a lowercase hexadecimal digit (zero-padding on the left is
definitional in finalizePy via zfill 8). -/
theorem c6_render (v : Int) (hlo : -(2 ^ 31) ≤ v) (hhi : v < 2 ^ 31) :
    pyNorm v = (v % 2 ^ 32).toNat ∧
    (finalizePy (pyNorm v)).length = 8 ∧
    ∀ c ∈ (finalizePy (pyNorm v)).data, c ∈ hexLowerChars := by
  refine ⟨?_, finalizePy_length _, finalizePy_chars _⟩
  unfold pyNorm
  split <;> omega

/-- C6 witness: the rendering property evaluated at the negative signed
value -1, which normalizes to 4294967295 and renders as ffffffff. -/
theorem c6_witness :
    (-(2 ^ 31) ≤ (-1 : Int)) ∧ ((-1 : Int) < 2 ^ 31) ∧
    (pyNorm (-1) = ((-1 : Int) % 2 ^ 32).toNat ∧
     (finalizePy (pyNorm (-1))).length = 8 ∧
     ∀ c ∈ (finalizePy (pyNorm (-1))).data, c ∈ hexLowerChars) :=
  ⟨by decide, by decide, c6_render (-1) (by decide) (by decide)⟩

/-- C7: when the destination path already exists, the exclusive create
fails and main terminates with the distinct create-destination status
(exit 3): nothing is written to the destination, the destination is not
removed, and no sidecar pseudo-file is consulted. (The model gives main no
operation that could modify the source, so the source is untouched by
construction.) -/
theorem c7_destExists (w : World) (fuel : Nat)
    (h1 : w.srcOpenOk = true) (h2 : w.destExists = true) :
    mainRun w fuel = ⟨Outcome.exit 3, false, [], false, false⟩ := by
  simp [mainRun, h1, h2]

/-- C7 witness: the create-destination failure evaluated on wC7, whose
destination path pre-exists. -/
theorem c7_witness :
    wC7.destExists = true ∧
    mainRun wC7 1 = ⟨Outcome.exit 3, false, [], false, false⟩ :=
  ⟨rfl, c7_destExists wC7 1 rfl rfl⟩

/-- C8: an empty source (a zero-length read as the very first read, whether
modelled as an exhausted read list or as a leading empty read result) makes
copy return the checksum string 00000001, the rendering of the untouched
Adler-32 seed 1, for every write behavior. -/
theorem c8_emptySource (wr : Nat → Nat) (rest : List (List Nat)) :
    (copyGo 1 [] wr 0).2 = Except.ok "00000001" ∧
    (copyGo 1 ([] :: rest) wr 0).2 = Except.ok "00000001" :=
  ⟨rfl, rfl⟩

/-- C9: behavior of the size-wait loop. First, if the observed sizes differ
from the expected size at every poll before poll k and match at poll k, the
loop returns at exactly poll k once the fuel exceeds k (k is arbitrary: no
upper bound on iterations), and its event trace is exactly k repetitions of
the retry log followed by a sleep of the interval. Second, if no poll ever
observes the expected size the loop never returns, for any amount of fuel. -/
theorem c9_wait :
    (∀ (sizes : Nat → Nat) (expected interval k fuel : Nat),
        (∀ j, j < k → sizes j ≠ expected) → sizes k = expected → k < fuel →
        waitTrace sizes expected interval 0 fuel =
          some (k, (List.replicate k [WEvent.retryLog, WEvent.sleep interval]).join)) ∧
    (∀ (sizes : Nat → Nat) (expected interval fuel : Nat),
        (∀ j, sizes j ≠ expected) →
        waitTrace sizes expected interval 0 fuel = none) := by
  constructor
  · intro sizes expected interval k fuel h1 h2 hf
    have h := waitTrace_first sizes expected interval k 0 fuel
      (fun j hj => by simpa using h1 j hj) (by simpa using h2) hf
    simpa using h
  · intro sizes expected interval fuel h
    exact waitTrace_never sizes expected interval h fuel 0

/-- C9 witness: a size sequence that reaches the expected value 7 at the
third poll produces exactly two retry-and-sleep rounds, and a sequence that
never reaches the expected value leaves the loop running at any fuel. -/
theorem c9_witness :
    waitTrace (fun i => if i < 2 then 0 else 7) 7 10 0 3 =
      some (2, [WEvent.retryLog, WEvent.sleep 10, WEvent.retryLog, WEvent.sleep 10]) ∧
    waitTrace (fun _ => 0) 1 10 0 5 = none := by
  constructor
  · rw [c9_wait.1 (fun i => if i < 2 then 0 else 7) 7 10 2 3 (by decide) (by decide)
      (by decide)]
    decide
  · exact c9_wait.2 (fun _ => 0) 1 10 5 (fun j => by simp)

/-- C10: the size formatter to_size_string is defined exactly on
1 <= n < 1024^5 (the integer logarithm must index the five-entry suffix
table) and in particular undefined at 0; consequently in wC10, where a
zero-byte source is copied and verified successfully (the remote checksum
matches the rendered seed), emitting the success record fails: main dies
with an uncaught error from to_size_string(0), the success record is never
emitted, and the run does not take the checksum-mismatch exit. -/
theorem c10_sizeFormatter :
    (∀ n : Nat, (to_size_string n).isSome ↔ (1 ≤ n ∧ n < 1024 ^ 5)) ∧
    to_size_string 0 = none ∧
    (copyGo 1 wC10.reads wC10.wr 0).2 = Except.ok "00000001" ∧
    getSumFromPnfs wC10.csumLines = some "00000001" ∧
    mainRun wC10 1 = ⟨Outcome.uncaught, false, [], true, false⟩ :=
  ⟨to_size_string_isSome, rfl, rfl, by decide, by decide⟩

/-- C10 witness: the definedness characterization evaluated at 5 (defined)
and at 1024^5 (undefined: the suffix table has no sixth entry). -/
theorem c10_witness :
    (to_size_string 5).isSome = true ∧ (to_size_string (1024 ^ 5)).isSome = false := by
  constructor
  · exact (c10_sizeFormatter.1 5).mpr (by norm_num)
  · by_cases hb : (to_size_string (1024 ^ 5)).isSome = true
    · have h := (c10_sizeFormatter.1 (1024 ^ 5)).mp hb
      exact absurd h.2 (lt_irrefl _)
    · simpa using hb

end Dsync
